import Mathlib

/-!
Verification of the resilient fetch engine of this repository against its
specification.  The development shallowly embeds the two modules the claims
are about:

* `src/util/retry.py` — the generic `retry` decorator (exponential backoff
  wrapper), embedded as `retryGo` / `retryRun`;
* `src/util/anti_scrape.py` — the `TokenBucket` rate limiter, the
  anti-scrape request loop `_request_with_anti_scrape`, and the extractor
  `parse_json_or_html`.

External collaborators (the `requests` transport, the BeautifulSoup
selector engine, the clocks and the random draws) are modelled as explicit
parameters: a transport is a function from the attempt number to the
completed response, a parsed document carries its selector resolution as a
function, and sleeps are recorded as trace events carrying the slept
amount excluding the random jitter term.
-/

/-! ## Embedding of `src/util/retry.py` -/

/-- Observable events of one run of the decorated wrapper.  `attemptCall n`
is the call of the wrapped function on attempt `n`; `callbackCall n failed`
is the `on_backoff(attempt, exc)` invocation (with whether the callback
itself raised); `sleepDelay n d` is the back-off sleep after attempt `n`,
recording `current_delay`, i.e. the slept amount excluding the
`random.uniform(0, jitter)` term the code adds on top. -/
inductive RetryEvent where
  | attemptCall (n : Nat)
  | callbackCall (n : Nat) (cbFailed : Bool)
  | sleepDelay (n : Nat) (d : ℚ)
  deriving DecidableEq, Repr

/-- Result of a run of the wrapper: the event trace and the outcome.
`Except.ok none` models Python's implicit `return None` after the
`while` loop (the "should not reach here" path of `retry.py`). -/
structure RetryOutcome (ε α : Type) where
  trace : List RetryEvent
  result : Except ε (Option α)

/-- The `while attempt <= tries` loop of the wrapper in `retry.py`
(lines 40–67).  `op attempt` is the wrapped call on attempt number
`attempt`; `Except.error e` models the call raising `e`, and
`retryable e` models `isinstance(e, exceptions)` (an exception outside
`exceptions` is not caught by the `except` clause and propagates at once).
`cb` models `on_backoff`; a `.error` result models the callback raising,
which the source catches with `except Exception: pass` — only the
`cbFailed` flag of the trace records it.  `remaining` counts the loop
iterations still permitted, maintained as `tries + 1 - attempt`, so
`remaining = 0` is the loop exit and `remaining = 1` means
`attempt == tries` (the branch that re-raises).  `currentDelay` is
`current_delay`, multiplied by `backoff` after each back-off sleep; the
code applies no upper clamp to it.  The decorator's injection of a default
`timeout` kwarg is argument plumbing invisible to `op` and not modelled. -/
def retryGo (retryable : ε → Bool) (cb : Nat → ε → Except Unit Unit)
    (backoff : ℚ) (op : Nat → Except ε α) :
    Nat → Nat → ℚ → RetryOutcome ε α
  | _, 0, _ => ⟨[], Except.ok none⟩
  | attempt, remaining + 1, currentDelay =>
    match op attempt with
    | Except.ok a => ⟨[RetryEvent.attemptCall attempt], Except.ok (some a)⟩
    | Except.error e =>
      if retryable e then
        if remaining == 0 then
          ⟨[RetryEvent.attemptCall attempt], Except.error e⟩
        else
          let cbFailed := match cb attempt e with
            | Except.ok _ => false
            | Except.error _ => true
          let rest := retryGo retryable cb backoff op (attempt + 1) remaining
            (currentDelay * backoff)
          ⟨RetryEvent.attemptCall attempt ::
             RetryEvent.callbackCall attempt cbFailed ::
             RetryEvent.sleepDelay attempt currentDelay :: rest.trace,
           rest.result⟩
      else
        ⟨[RetryEvent.attemptCall attempt], Except.error e⟩

/-- One call of the decorated function: the loop starts at `attempt = 1`
with `current_delay = delay` and may iterate `tries` times. -/
def retryRun (retryable : ε → Bool) (cb : Nat → ε → Except Unit Unit)
    (tries : Nat) (delay backoff : ℚ) (op : Nat → Except ε α) :
    RetryOutcome ε α :=
  retryGo retryable cb backoff op 1 tries delay

/-- The parameter validation the `retry` decorator performs before
wrapping (`retry.py` lines 29–36): it raises `ValueError` unless
`tries >= 1`, `delay >= 0`, `backoff >= 1` and `jitter >= 0`. -/
def retryParamsValid (tries : Nat) (delay backoff jitter : ℚ) : Prop :=
  1 ≤ tries ∧ 0 ≤ delay ∧ 1 ≤ backoff ∧ 0 ≤ jitter

/-- Whether an event is a call of the wrapped function. -/
def isAttemptCall : RetryEvent → Bool
  | RetryEvent.attemptCall _ => true
  | _ => false

/-- Number of attempts (calls of the wrapped function) in a run. -/
def attemptCount (o : RetryOutcome ε α) : Nat :=
  o.trace.countP isAttemptCall

/-- The back-off sleeps of a run, in order, excluding jitter. -/
def sleepsOf (o : RetryOutcome ε α) : List ℚ :=
  o.trace.filterMap (fun e => match e with
    | RetryEvent.sleepDelay _ d => some d
    | _ => none)

/-- Erase the information of whether the `on_backoff` callback raised,
keeping everything else of an event. -/
def eraseCbFlag : RetryEvent → RetryEvent
  | RetryEvent.callbackCall n _ => RetryEvent.callbackCall n false
  | e => e

/-- The inter-attempt delay sequence as §4.3 of the spec words it: the
delay starts at `baseDelay` and, after each failed attempt, is multiplied
by `backoffFactor` and clamped to `maxDelay`.  Written from the spec's
words, to compare against the sleeps the code actually performs. -/
def specClampedDelays (baseDelay backoffFactor maxDelay : ℚ) : Nat → List ℚ
  | 0 => []
  | n + 1 => baseDelay ::
      specClampedDelays (min (baseDelay * backoffFactor) maxDelay)
        backoffFactor maxDelay n

theorem geomList_step (d backoff : ℚ) (m : Nat) :
    (List.range (m + 1)).map (fun i => d * backoff ^ i) =
      d :: (List.range m).map (fun i => d * backoff * backoff ^ i) := by
  rw [List.range_succ_eq_map]
  simp only [List.map_cons, List.map_map, pow_zero, mul_one, List.cons.injEq,
    true_and]
  refine List.map_congr_left (fun i _ => ?_)
  simp only [Function.comp_apply]
  rw [pow_succ]
  ring

/-- If every attempt in the window fails with a retryable failure, the loop
performs one attempt per permitted iteration, sleeps the geometric delay
sequence, and finally propagates the error of the last attempt unchanged. -/
theorem retryGo_allFail (retryable : ε → Bool) (cb : Nat → ε → Except Unit Unit)
    (backoff : ℚ) (op : Nat → Except ε α) :
    ∀ (r a : Nat) (d : ℚ), 1 ≤ r →
      (∀ k, a ≤ k → k < a + r → ∃ e, op k = Except.error e ∧ retryable e = true) →
      attemptCount (retryGo retryable cb backoff op a r d) = r ∧
      (retryGo retryable cb backoff op a r d).result = (op (a + r - 1)).map some ∧
      sleepsOf (retryGo retryable cb backoff op a r d) =
        (List.range (r - 1)).map (fun i => d * backoff ^ i) := by
  intro r
  induction r with
  | zero => intro a d h; omega
  | succ r ih =>
    intro a d _ hop
    obtain ⟨e, hke, hre⟩ := hop a (le_refl a) (by omega)
    rcases Nat.eq_zero_or_pos r with hr | hr
    · subst hr
      simp [retryGo, hke, hre, attemptCount, sleepsOf, isAttemptCall, Except.map]
    · have hbeq : (r == 0) = false := by simp; omega
      obtain ⟨ihc, ihr, ihs⟩ := ih (a + 1) (d * backoff) hr
        (fun k hk1 hk2 => hop k (by omega) (by omega))
      refine ⟨?_, ?_, ?_⟩
      · simp only [attemptCount] at ihc
        simp [retryGo, hke, hre, hbeq, attemptCount, List.countP_cons,
          isAttemptCall, ihc]
      · have hidx : a + 1 + r - 1 = a + (r + 1) - 1 := by omega
        simp only [retryGo, hke, hre, if_true, hbeq, Bool.false_eq_true, if_false]
        rw [ihr, hidx]
      · simp only [retryGo, hke, hre, if_true, hbeq, Bool.false_eq_true, if_false,
          sleepsOf, List.filterMap_cons] at ihs ⊢
        rw [ihs]
        have hm : r + 1 - 1 = (r - 1) + 1 := by omega
        rw [hm, geomList_step]

/-- A failure outside the retried kinds propagates at once: if attempts
before `j` fail retryably and attempt `j` fails non-retryably, the loop
stops after exactly `j - a + 1` attempts with that very error. -/
theorem retryGo_nonRetryable (retryable : ε → Bool) (cb : Nat → ε → Except Unit Unit)
    (backoff : ℚ) (op : Nat → Except ε α) :
    ∀ (r a j : Nat) (d : ℚ) (e : ε), a ≤ j → j < a + r →
      op j = Except.error e → retryable e = false →
      (∀ k, a ≤ k → k < j → ∃ e', op k = Except.error e' ∧ retryable e' = true) →
      attemptCount (retryGo retryable cb backoff op a r d) = j - a + 1 ∧
      (retryGo retryable cb backoff op a r d).result = Except.error e := by
  intro r
  induction r with
  | zero => intro a j d e h1 h2; omega
  | succ r ih =>
    intro a j d e haj hjr hje hre hop
    rcases Nat.eq_or_lt_of_le haj with heq | hlt
    · subst heq
      simp [retryGo, hje, hre, attemptCount, isAttemptCall]
    · obtain ⟨e', hke', hre'⟩ := hop a (le_refl a) hlt
      have hbeq : (r == 0) = false := by simp; omega
      obtain ⟨ihc, ihr⟩ := ih (a + 1) j (d * backoff) e hlt (by omega) hje hre
        (fun k hk1 hk2 => hop k (by omega) hk2)
      constructor
      · simp only [attemptCount] at ihc
        have hsub : j - (a + 1) + 1 + 1 = j - a + 1 := by omega
        simp [retryGo, hke', hre', hbeq, attemptCount, List.countP_cons,
          isAttemptCall, ihc]
        omega
      · simp only [retryGo, hke', hre', if_true, hbeq, Bool.false_eq_true, if_false]
        exact ihr

/-- The run is insensitive to the `on_backoff` callback, beyond the record
of whether the callback raised. -/
theorem retryGo_cb_independent (retryable : ε → Bool) (backoff : ℚ)
    (op : Nat → Except ε α) (cb cb' : Nat → ε → Except Unit Unit) :
    ∀ (r a : Nat) (d : ℚ),
      (retryGo retryable cb backoff op a r d).trace.map eraseCbFlag =
        (retryGo retryable cb' backoff op a r d).trace.map eraseCbFlag ∧
      (retryGo retryable cb backoff op a r d).result =
        (retryGo retryable cb' backoff op a r d).result := by
  intro r
  induction r with
  | zero => intro a d; simp [retryGo]
  | succ r ih =>
    intro a d
    cases hop : op a with
    | ok v => simp [retryGo, hop]
    | error e =>
      cases hre : retryable e with
      | false => simp [retryGo, hop, hre]
      | true =>
        cases hr : r == 0 with
        | true => simp [retryGo, hop, hre, hr]
        | false =>
          obtain ⟨iht, ihr⟩ := ih (a + 1) (d * backoff)
          simp only [retryGo, hop, hre, if_true, hr, Bool.false_eq_true, if_false,
            List.map_cons, eraseCbFlag]
          exact ⟨by rw [iht], ihr⟩

/-- Non-decreasing geometric delay sequence. -/
theorem geomList_chain (d backoff : ℚ) (hd : 0 ≤ d) (hb : 1 ≤ backoff) (m : Nat) :
    List.Chain' (fun x y => x ≤ y)
      ((List.range m).map (fun i => d * backoff ^ i)) := by
  rw [List.chain'_map]
  cases m with
  | zero => simp
  | succ m =>
    rw [List.chain'_range_succ]
    intro i _
    exact mul_le_mul_of_nonneg_left (pow_le_pow_right₀ hb (Nat.le_succ i)) hd

/-- C2 (counterexample): the claim says every inter-attempt delay is
bounded above by `maxDelay`, the current delay being "clamped so it never
exceeds maxDelay".  The wrapper in `retry.py` has no such parameter and
applies no clamp: in a run with `tries = 10`, `delay = 1`, `backoff = 2`
and every attempt failing retryably, the sleeps reach `256`, exceeding a
policy bound of `maxDelay = 100`, and the sleep sequence differs from the
spec's clamped sequence at that bound. -/
theorem claim_C2_counterexample :
    ((sleepsOf (retryRun (fun _ => true) (fun _ _ => Except.ok ()) 10 1 2
      (fun _ => (Except.error () : Except Unit Unit)))).all
        (fun d => d ≤ 100)) = false ∧
    sleepsOf (retryRun (fun _ => true) (fun _ _ => Except.ok ()) 10 1 2
      (fun _ => (Except.error () : Except Unit Unit)))
      ≠ specClampedDelays 1 2 100 9 := by
  constructor
  · simp [retryRun, retryGo, sleepsOf, List.all]
    norm_num
  · simp [retryRun, retryGo, sleepsOf, specClampedDelays]
    norm_num

/-- C2 (amended): for a run with `tries = n` in which every attempt fails
retryably, the inter-attempt delays excluding jitter are exactly
`delay * backoff ^ i` for `i = 0, …, n − 2` — each delay is the previous
one multiplied by `backoff`, with no `maxDelay` clamp anywhere — and,
since the decorator requires `delay ≥ 0` and `backoff ≥ 1`, the sequence
is non-decreasing. -/
theorem claim_C2_amended (retryable : ε → Bool) (cb : Nat → ε → Except Unit Unit)
    (tries : Nat) (delay backoff : ℚ) (op : Nat → Except ε α)
    (htries : 1 ≤ tries) (hdelay : 0 ≤ delay) (hbackoff : 1 ≤ backoff)
    (hop : ∀ k, 1 ≤ k → k ≤ tries → ∃ e, op k = Except.error e ∧ retryable e = true) :
    sleepsOf (retryRun retryable cb tries delay backoff op) =
      (List.range (tries - 1)).map (fun i => delay * backoff ^ i) ∧
    List.Chain' (fun x y => x ≤ y)
      (sleepsOf (retryRun retryable cb tries delay backoff op)) := by
  obtain ⟨-, -, hs⟩ := retryGo_allFail retryable cb backoff op tries 1 delay htries
    (fun k hk1 hk2 => hop k hk1 (by omega))
  refine ⟨hs, ?_⟩
  unfold retryRun
  rw [hs]
  exact geomList_chain delay backoff hdelay hbackoff (tries - 1)

/-- Witness for C2 (amended) at `tries = 4`, `delay = 1`, `backoff = 2`,
with an operation that always fails retryably. -/
theorem claim_C2_amended_witness :
    sleepsOf (retryRun (fun _ : Unit => true) (fun _ _ => Except.ok ()) 4 1 2
      (fun _ => (Except.error () : Except Unit Unit))) =
      (List.range 3).map (fun i => 1 * 2 ^ i) ∧
    List.Chain' (fun x y => x ≤ y)
      (sleepsOf (retryRun (fun _ : Unit => true) (fun _ _ => Except.ok ()) 4 1 2
        (fun _ => (Except.error () : Except Unit Unit)))) :=
  claim_C2_amended (fun _ => true) (fun _ _ => Except.ok ()) 4 1 2
    (fun _ => Except.error ()) (by norm_num) (by norm_num) (by norm_num)
    (fun k _ _ => ⟨(), rfl, rfl⟩)

/-- C5: with `tries = n ≥ 1`, (a) if every attempt fails with a retryable
failure kind, exactly `n` attempts occur and the failure of the final
attempt propagates to the caller unchanged; (b) a failure whose kind is
not retryable propagates immediately — the run stops at the attempt that
raised it, consuming no retry. -/
theorem claim_C5 {α : Type} (retryable : ε → Bool) (cb : Nat → ε → Except Unit Unit)
    (tries : Nat) (delay backoff : ℚ) (htries : 1 ≤ tries) :
    (∀ op : Nat → Except ε α,
      (∀ k, 1 ≤ k → k ≤ tries → ∃ e, op k = Except.error e ∧ retryable e = true) →
      attemptCount (retryRun retryable cb tries delay backoff op) = tries ∧
      (retryRun retryable cb tries delay backoff op).result = (op tries).map some) ∧
    (∀ (op : Nat → Except ε α) (j : Nat) (e : ε), 1 ≤ j → j ≤ tries →
      op j = Except.error e → retryable e = false →
      (∀ k, 1 ≤ k → k < j → ∃ e', op k = Except.error e' ∧ retryable e' = true) →
      attemptCount (retryRun retryable cb tries delay backoff op) = j ∧
      (retryRun retryable cb tries delay backoff op).result = Except.error e) := by
  constructor
  · intro op hop
    obtain ⟨hc, hr, -⟩ := retryGo_allFail retryable cb backoff op tries 1 delay htries
      (fun k hk1 hk2 => hop k hk1 (by omega))
    have hidx : 1 + tries - 1 = tries := by omega
    rw [hidx] at hr
    exact ⟨hc, hr⟩
  · intro op j e hj1 hjt hje hre hop
    obtain ⟨hc, hr⟩ := retryGo_nonRetryable retryable cb backoff op tries 1 j delay e
      hj1 (by omega) hje hre (fun k hk1 hk2 => hop k hk1 hk2)
    have hidx : j - 1 + 1 = j := by omega
    rw [hidx] at hc
    exact ⟨hc, hr⟩

/-- Witness for C5 at `tries = 3` with an always-failing retryable
operation: three attempts, and the last error propagates. -/
theorem claim_C5_witness :
    attemptCount (retryRun (fun _ : Unit => true) (fun _ _ => Except.ok ()) 3 1 2
      (fun _ => (Except.error () : Except Unit Unit))) = 3 ∧
    (retryRun (fun _ : Unit => true) (fun _ _ => Except.ok ()) 3 1 2
      (fun _ => (Except.error () : Except Unit Unit))).result = Except.error () :=
  (claim_C5 (fun _ => true) (fun _ _ => Except.ok ()) 3 1 2 (by norm_num)).1
    (fun _ => Except.error ()) (fun k _ _ => ⟨(), rfl, rfl⟩)

/-- C9: a failure raised by the `on_backoff` callback is swallowed — the
run with an arbitrary (possibly failing) callback has the same attempts,
the same sleeps and the same final result as the run with a callback that
always succeeds; only the trace flag recording whether the callback raised
can differ. -/
theorem claim_C9 (retryable : ε → Bool) (tries : Nat) (delay backoff : ℚ)
    (op : Nat → Except ε α) (cb : Nat → ε → Except Unit Unit) :
    (retryRun retryable cb tries delay backoff op).trace.map eraseCbFlag =
      (retryRun retryable (fun _ _ => Except.ok ()) tries delay backoff op).trace.map
        eraseCbFlag ∧
    (retryRun retryable cb tries delay backoff op).result =
      (retryRun retryable (fun _ _ => Except.ok ()) tries delay backoff op).result :=
  retryGo_cb_independent retryable backoff op cb (fun _ _ => Except.ok ()) tries 1 delay

/-! ## Embedding of `_request_with_anti_scrape` (`src/util/anti_scrape.py`) -/

/-- A completed transport round-trip, reduced to what the status loop
inspects: the status code. -/
structure Response where
  status_code : Nat
  deriving DecidableEq, Repr

/-- Observable events of one call of `_request_with_anti_scrape`, each
tagged with the attempt number it belongs to: the `random_page_delay()`
pacing sleep, the `_BUCKET.consume(1.0)` admission, the
`_UA_PROVIDER.random()` and `_PROXY_PROVIDER.random()` identity draws, the
transport call, and the status-triggered back-off sleep (whose amount is
`2^(attempt-1)` plus a jitter term, not recorded). -/
inductive FEvent where
  | pageDelay (attempt : Nat)
  | bucketConsume (attempt : Nat)
  | drawUserAgent (attempt : Nat)
  | drawProxy (attempt : Nat)
  | transportCall (attempt : Nat)
  | statusSleep (attempt : Nat)
  deriving DecidableEq, Repr

/-- Outcome of the status loop: a returned response, or the
`resp.raise_for_status()` raise on an anti-bot status once the budget is
exceeded (which carries the last response). -/
inductive FetchOut where
  | success (resp : Response)
  | blocked (resp : Response)
  deriving DecidableEq, Repr

/-- `resp.status_code in (403, 429, 503)`. -/
def isAntiBotStatus (s : Nat) : Bool := s == 403 || s == 429 || s == 503

/-- The events every loop iteration performs before inspecting the status:
pacing delay, rate-limiter admission, fresh identity draw, transport call. -/
def attemptPrelude (a : Nat) : List FEvent :=
  [FEvent.pageDelay a, FEvent.bucketConsume a, FEvent.drawUserAgent a,
   FEvent.drawProxy a, FEvent.transportCall a]

/-- The `while True` loop of `_request_with_anti_scrape` (lines 195–234).
`transport a` is the completed round-trip of attempt `a` (the decorator
wrapping the function retries `requests.Timeout` / `ConnectionError`
separately and is not involved when every round-trip completes, which is
the situation all claims about this loop concern).  `a` is the attempt
counter after its `attempt += 1` increment; `remaining` is the number of
further anti-bot responses the loop will still tolerate, maintained as
`status_retries + 2 - a`, so `remaining = 0` is exactly the code's
`attempt > status_retries + 1` test and the loop raises via
`resp.raise_for_status()` (modelled `FetchOut.blocked resp`, the last
response attached).  A response whose status is outside `{403, 429, 503}`
is returned at once. -/
def fetchGo (transport : Nat → Response) : Nat → Nat → List FEvent × FetchOut
  | a, 0 =>
    if isAntiBotStatus (transport a).status_code then
      (attemptPrelude a, FetchOut.blocked (transport a))
    else
      (attemptPrelude a, FetchOut.success (transport a))
  | a, remaining + 1 =>
    if isAntiBotStatus (transport a).status_code then
      let rest := fetchGo transport (a + 1) remaining
      (attemptPrelude a ++ FEvent.statusSleep a :: rest.1, rest.2)
    else
      (attemptPrelude a, FetchOut.success (transport a))

/-- One call of `_request_with_anti_scrape` with the given
`status_retries`: the loop starts at `attempt = 1`, tolerating
`status_retries + 1` anti-bot responses before raising. -/
def requestWithAntiScrape (transport : Nat → Response) (status_retries : Nat) :
    List FEvent × FetchOut :=
  fetchGo transport 1 (status_retries + 1)

/-- Whether an event is a status-triggered back-off sleep. -/
def isStatusSleep : FEvent → Bool
  | FEvent.statusSleep _ => true
  | _ => false

/-- Whether an event is a transport call. -/
def isTransportCall : FEvent → Bool
  | FEvent.transportCall _ => true
  | _ => false

/-- Number of status-triggered back-off sleeps in a trace. -/
def countStatusSleeps (tr : List FEvent) : Nat := tr.countP isStatusSleep

/-- Number of transport calls in a trace. -/
def countTransportCalls (tr : List FEvent) : Nat := tr.countP isTransportCall

/-- Under a transport that always answers with an anti-bot status, the
loop sleeps once per tolerated iteration and ends blocked on the last
response. -/
theorem fetchGo_allBlocked (transport : Nat → Response)
    (hb : ∀ a, isAntiBotStatus (transport a).status_code = true) :
    ∀ (r a : Nat),
      countStatusSleeps (fetchGo transport a r).1 = r ∧
      countTransportCalls (fetchGo transport a r).1 = r + 1 ∧
      (fetchGo transport a r).2 = FetchOut.blocked (transport (a + r)) := by
  intro r
  induction r with
  | zero =>
    intro a
    simp [fetchGo, hb a, countStatusSleeps, countTransportCalls, attemptPrelude,
      isStatusSleep, isTransportCall]
  | succ r ih =>
    intro a
    obtain ⟨ihs, iht, ihr⟩ := ih (a + 1)
    refine ⟨?_, ?_, ?_⟩
    · simp only [countStatusSleeps] at ihs
      simp [fetchGo, hb a, countStatusSleeps, attemptPrelude, List.countP_cons,
        List.countP_append, isStatusSleep, ihs]
    · simp only [countTransportCalls] at iht
      simp [fetchGo, hb a, countTransportCalls, attemptPrelude, List.countP_cons,
        List.countP_append, isTransportCall, iht]
    · simp only [fetchGo, hb a, if_true]
      rw [ihr]
      have : a + 1 + r = a + (r + 1) := by omega
      rw [this]

/-- C1: with `statusRetryBudget = k` and a transport whose every completed
round-trip carries an anti-bot status (`403`, `429` or `503`),
`_request_with_anti_scrape` performs exactly `k + 1` status-triggered
retry cycles — one back-off sleep each — over `k + 2` transport calls,
and then fails by raising on the last response (kind BLOCKED), never
performing more cycles. -/
theorem claim_C1 (k : Nat) (transport : Nat → Response)
    (hb : ∀ a, isAntiBotStatus (transport a).status_code = true) :
    countStatusSleeps (requestWithAntiScrape transport k).1 = k + 1 ∧
    countTransportCalls (requestWithAntiScrape transport k).1 = k + 2 ∧
    (requestWithAntiScrape transport k).2 = FetchOut.blocked (transport (k + 2)) := by
  obtain ⟨hs, ht, hr⟩ := fetchGo_allBlocked transport hb (k + 1) 1
  unfold requestWithAntiScrape
  refine ⟨hs, ?_, ?_⟩
  · rw [ht]
  · rw [hr]
    have h12 : 1 + (k + 1) = k + 2 := by omega
    rw [h12]

/-- Witness for C1: a transport constantly answering 429 with budget 2
gives 3 sleep cycles, 4 transport calls, and a blocked failure carrying
the last 429 response. -/
theorem claim_C1_witness :
    countStatusSleeps (requestWithAntiScrape (fun _ => ⟨429⟩) 2).1 = 3 ∧
    countTransportCalls (requestWithAntiScrape (fun _ => ⟨429⟩) 2).1 = 4 ∧
    (requestWithAntiScrape (fun _ => ⟨429⟩) 2).2 = FetchOut.blocked ⟨429⟩ :=
  claim_C1 2 (fun _ => ⟨429⟩) (fun _ => rfl)

/-- C3 (counterexample): the claim says a non-success status outside the
anti-bot set (such as 404) is surfaced as an HTTP_ERROR failure and "not
returned as a success".  The loop's only status test is membership in
`(403, 429, 503)`; every other status — 404 and 500 included — takes the
`return resp` path, so the 404 response is returned as the successful
result of the call, and no failure of any kind is raised. -/
theorem claim_C3_counterexample :
    (requestWithAntiScrape (fun _ => ⟨404⟩) 3).2 = FetchOut.success ⟨404⟩ := by
  decide

/-- C3 (amended): a first response whose status lies outside the anti-bot
set `{403, 429, 503}` — success or not, 404 and 500 included — is returned
immediately as the result of the fetch, after exactly one pace/admit/draw/
transport cycle, with no retry and with no HTTP_ERROR (or any) failure
raised at this layer; the caller receives the response itself. -/
theorem claim_C3_amended (transport : Nat → Response) (status_retries : Nat)
    (h : isAntiBotStatus (transport 1).status_code = false) :
    requestWithAntiScrape transport status_retries =
      (attemptPrelude 1, FetchOut.success (transport 1)) := by
  unfold requestWithAntiScrape
  simp [fetchGo, h]

/-- Witness for C3 (amended): a transport answering 404 on attempt 1. -/
theorem claim_C3_amended_witness :
    requestWithAntiScrape (fun _ => ⟨404⟩) 3 =
      (attemptPrelude 1, FetchOut.success ⟨404⟩) :=
  claim_C3_amended (fun _ => ⟨404⟩) 3 rfl

/-- The trace of the loop always opens with the pacing delay, bucket
admission, identity draws and transport call of its first attempt. -/
theorem fetchGo_trace_head (transport : Nat → Response) (a r : Nat) :
    ∃ tail, (fetchGo transport a r).1 = attemptPrelude a ++ tail := by
  cases r with
  | zero =>
    cases h : isAntiBotStatus (transport a).status_code with
    | true => exact ⟨[], by simp [fetchGo, h]⟩
    | false => exact ⟨[], by simp [fetchGo, h]⟩
  | succ r =>
    cases h : isAntiBotStatus (transport a).status_code with
    | true =>
      exact ⟨FEvent.statusSleep a :: (fetchGo transport (a + 1) r).1,
        by simp [fetchGo, h]⟩
    | false => exact ⟨[], by simp [fetchGo, h]⟩

theorem statusSleep_not_mem_prelude (s a : Nat) :
    FEvent.statusSleep s ∉ attemptPrelude a := by
  simp [attemptPrelude]

/-- Any status back-off sleep in the trace is immediately followed by the
full prelude (pacing, admission, identity draws, transport call) of the
next attempt. -/
theorem fetchGo_statusSleep_cycle (transport : Nat → Response) :
    ∀ (r a s : Nat), FEvent.statusSleep s ∈ (fetchGo transport a r).1 →
      ∃ pre post, (fetchGo transport a r).1 =
        pre ++ FEvent.statusSleep s :: FEvent.pageDelay (s + 1) ::
          FEvent.bucketConsume (s + 1) :: FEvent.drawUserAgent (s + 1) ::
          FEvent.drawProxy (s + 1) :: FEvent.transportCall (s + 1) :: post := by
  intro r
  induction r with
  | zero =>
    intro a s hmem
    exfalso
    cases h : isAntiBotStatus (transport a).status_code with
    | true => simp [fetchGo, h, attemptPrelude] at hmem
    | false => simp [fetchGo, h, attemptPrelude] at hmem
  | succ r ih =>
    intro a s hmem
    cases h : isAntiBotStatus (transport a).status_code with
    | false =>
      exfalso
      simp [fetchGo, h, attemptPrelude] at hmem
    | true =>
      have hshape : (fetchGo transport a (r + 1)).1 =
          attemptPrelude a ++ FEvent.statusSleep a :: (fetchGo transport (a + 1) r).1 := by
        simp [fetchGo, h]
      rw [hshape] at hmem ⊢
      rcases List.mem_append.mp hmem with hp | hc
      · exact absurd hp (statusSleep_not_mem_prelude s a)
      · rcases List.mem_cons.mp hc with heq | hrest
        · injection heq with hsa
          subst hsa
          obtain ⟨tail, htail⟩ := fetchGo_trace_head transport (s + 1) r
          refine ⟨attemptPrelude s, tail, ?_⟩
          rw [htail]
          simp [attemptPrelude]
        · obtain ⟨pre, post, hdecomp⟩ := ih (a + 1) s hrest
          refine ⟨attemptPrelude a ++ FEvent.statusSleep a :: pre, post, ?_⟩
          rw [hdecomp]
          simp

/-- C8: after every within-budget anti-bot response, the restarted attempt
performs a fresh randomized pacing delay, a fresh rate-limiter admission,
and fresh user-agent and proxy draws before its transport call, exactly
like any other attempt: every status back-off sleep in the trace is
immediately followed by the complete prelude of the next attempt. -/
theorem claim_C8 (transport : Nat → Response) (status_retries s : Nat)
    (hmem : FEvent.statusSleep s ∈ (requestWithAntiScrape transport status_retries).1) :
    ∃ pre post, (requestWithAntiScrape transport status_retries).1 =
      pre ++ FEvent.statusSleep s :: FEvent.pageDelay (s + 1) ::
        FEvent.bucketConsume (s + 1) :: FEvent.drawUserAgent (s + 1) ::
        FEvent.drawProxy (s + 1) :: FEvent.transportCall (s + 1) :: post :=
  fetchGo_statusSleep_cycle transport (status_retries + 1) 1 s hmem

/-- Witness for C8: with a constant-429 transport and budget 0, the sleep
of attempt 1 is followed by the full prelude of attempt 2. -/
theorem claim_C8_witness :
    ∃ pre post, (requestWithAntiScrape (fun _ => ⟨429⟩) 0).1 =
      pre ++ FEvent.statusSleep 1 :: FEvent.pageDelay 2 ::
        FEvent.bucketConsume 2 :: FEvent.drawUserAgent 2 ::
        FEvent.drawProxy 2 :: FEvent.transportCall 2 :: post :=
  claim_C8 (fun _ => ⟨429⟩) 0 1 (by decide)

/-! ## Embedding of `TokenBucket` (`src/util/anti_scrape.py`, lines 57–92) -/

/-- The mutable state of a `TokenBucket`.  The `updated_at` clock reading
is not carried: each refill receives the elapsed monotonic-clock delta
`now - updated_at` as an explicit parameter instead. -/
structure TokenBucket where
  rate : ℚ
  capacity : ℚ
  tokens : ℚ
  deriving DecidableEq, Repr

/-- `TokenBucket.__init__(rate, burst)`: the rate is clamped to `≥ 0`, the
capacity to `≥ 1`, and the bucket starts full. -/
def TokenBucket.init (rate : ℚ) (burst : ℤ) : TokenBucket :=
  { rate := max 0 rate
  , capacity := ((max 1 burst : ℤ) : ℚ)
  , tokens := ((max 1 burst : ℤ) : ℚ) }

/-- `TokenBucket._refill()`: add `max 0 (now - updated_at) * rate` tokens,
capped at the capacity.  `delta` is the raw clock difference
`now - self.updated_at`; the code clamps it below at `0`. -/
def TokenBucket.refill (b : TokenBucket) (delta : ℚ) : TokenBucket :=
  { b with tokens := min b.capacity (b.tokens + max 0 delta * b.rate) }

/-- One serialized critical section touching the bucket state, i.e. what a
single holder of `self._lock` does in one pass.  `refill delta` is a bare
`_refill()`; `consume cost delta` is one iteration of the `while True`
loop in `consume`: the `cost <= 0` early return, else `_refill()` followed
by the test-and-deduct (the sleep between iterations happens outside the
lock and does not touch the state). -/
inductive BucketOp where
  | refill (delta : ℚ)
  | consume (cost delta : ℚ)

/-- Effect of one critical section on the bucket state. -/
def TokenBucket.step (b : TokenBucket) : BucketOp → TokenBucket
  | BucketOp.refill delta => b.refill delta
  | BucketOp.consume cost delta =>
    if cost ≤ 0 then b
    else
      let b' := b.refill delta
      if cost ≤ b'.tokens then { b' with tokens := b'.tokens - cost } else b'

/-- An interleaving of lock-serialized refill/consume sections: since the
lock serializes every access to the state, any concurrent execution is
observationally one such sequence. -/
def TokenBucket.run (b : TokenBucket) (ops : List BucketOp) : TokenBucket :=
  ops.foldl TokenBucket.step b

/-- The machine invariant of a bucket: non-negative rate, capacity at
least one, and tokens within `[0, capacity]`. -/
def TokenBucket.Inv (b : TokenBucket) : Prop :=
  0 ≤ b.rate ∧ 1 ≤ b.capacity ∧ 0 ≤ b.tokens ∧ b.tokens ≤ b.capacity

theorem TokenBucket.init_inv (rate : ℚ) (burst : ℤ) :
    (TokenBucket.init rate burst).Inv := by
  have h1 : (1 : ℤ) ≤ max 1 burst := le_max_left 1 burst
  have h1q : (1 : ℚ) ≤ ((max 1 burst : ℤ) : ℚ) := by exact_mod_cast h1
  exact ⟨le_max_left 0 rate, h1q, le_trans zero_le_one h1q, le_refl _⟩

theorem TokenBucket.refill_inv (b : TokenBucket) (delta : ℚ) (h : b.Inv) :
    (b.refill delta).Inv := by
  obtain ⟨hr, hc, ht0, htc⟩ := h
  refine ⟨hr, hc, ?_, ?_⟩
  · have hadd : 0 ≤ b.tokens + max 0 delta * b.rate :=
      add_nonneg ht0 (mul_nonneg (le_max_left 0 delta) hr)
    have hcap : (0 : ℚ) ≤ b.capacity := le_trans zero_le_one hc
    exact le_min hcap hadd
  · exact min_le_left _ _

theorem TokenBucket.step_inv (b : TokenBucket) (op : BucketOp) (h : b.Inv) :
    (b.step op).Inv := by
  cases op with
  | refill delta => exact b.refill_inv delta h
  | consume cost delta =>
    by_cases hcost : cost ≤ 0
    · simpa [TokenBucket.step, hcost] using h
    · obtain ⟨hr, hc, ht0, htc⟩ := b.refill_inv delta h
      have hstep : b.step (BucketOp.consume cost delta) =
          if cost ≤ (b.refill delta).tokens
          then { b.refill delta with tokens := (b.refill delta).tokens - cost }
          else b.refill delta := by
        simp [TokenBucket.step, hcost]
      by_cases htok : cost ≤ (b.refill delta).tokens
      · rw [hstep, if_pos htok]
        refine ⟨hr, hc, sub_nonneg.mpr htok, ?_⟩
        exact le_trans (sub_le_self _ (le_of_lt (lt_of_not_le hcost))) htc
      · rw [hstep, if_neg htok]
        exact ⟨hr, hc, ht0, htc⟩

theorem TokenBucket.run_inv (ops : List BucketOp) (b : TokenBucket) (h : b.Inv) :
    (b.run ops).Inv := by
  induction ops generalizing b with
  | nil => simpa [TokenBucket.run] using h
  | cons op rest ih =>
    have h1 : (b.step op).Inv := b.step_inv op h
    simpa [TokenBucket.run, List.foldl_cons] using ih (b.step op) h1

/-- C4: for every construction of a bucket and every interleaving of
lock-serialized refill and consume sections, with arbitrary elapsed-time
deltas and arbitrary costs, the tokens stay within `[0, capacity]`.
Since the sequence of sections is universally quantified, the bound holds
after every prefix, i.e. at every observed instant. -/
theorem claim_C4 (rate : ℚ) (burst : ℤ) (ops : List BucketOp) :
    0 ≤ ((TokenBucket.init rate burst).run ops).tokens ∧
    ((TokenBucket.init rate burst).run ops).tokens ≤
      ((TokenBucket.init rate burst).run ops).capacity := by
  obtain ⟨-, -, h0, hc⟩ :=
    TokenBucket.run_inv ops (TokenBucket.init rate burst)
      (TokenBucket.init_inv rate burst)
  exact ⟨h0, hc⟩

/-! ## Embedding of `parse_json_or_html` (`src/util/anti_scrape.py`, lines 264–326) -/

/-- Character-list prefix test (Python `str.startswith` over the tail
positions, used to build the substring test below). -/
def isPreOf : List Char → List Char → Bool
  | [], _ => true
  | _ :: _, [] => false
  | c :: cs, d :: ds => c == d && isPreOf cs ds

/-- Substring test on character lists. -/
def subList (needle : List Char) : List Char → Bool
  | [] => isPreOf needle []
  | d :: ds => isPreOf needle (d :: ds) || subList needle ds

/-- Python `needle in haystack` on strings. -/
def strMem (needle hay : String) : Bool := subList needle.toList hay.toList

/-- Python `str.lower()`, character by character. -/
def strLower (s : String) : String := String.mk (s.toList.map Char.toLower)

/-- Python `str.strip()`: remove whitespace from both ends. -/
def pyStrip (s : String) : String :=
  String.mk (((s.toList.dropWhile Char.isWhitespace).reverse.dropWhile
    Char.isWhitespace).reverse)

/-- Python `s.startswith(pre)`. -/
def pyStartsWith (s pre : String) : Bool := isPreOf pre.toList s.toList

/-- Python slice `s[n:]` over the characters. -/
def pyDrop (s : String) (n : Nat) : String := String.mk (s.toList.drop n)

/-- A decoded JSON value (`response.json()` result).  Numbers are carried
as integers; no claim depends on numeric payloads. -/
inductive Json where
  | null
  | bool (b : Bool)
  | num (n : ℤ)
  | str (s : String)
  | arr (elems : List Json)
  | obj (fields : List (String × Json))

/-- Python truthiness of a decoded JSON value (`None`, `False`, `0`, `""`,
`[]`, `{}` are falsy), as the `or` chains of the source use it. -/
def Json.truthy : Json → Bool
  | Json.null => false
  | Json.bool b => b
  | Json.num n => n != 0
  | Json.str s => s != ""
  | Json.arr xs => !xs.isEmpty
  | Json.obj fs => !fs.isEmpty

/-- `dict.get(key)`: the first binding wins (Python dict keys are
unique). -/
def Json.get? (fields : List (String × Json)) (k : String) : Option Json :=
  fields.lookup k

/-- Python `x or y` where `x` is a `dict.get` result (possibly `None`). -/
def pyOrJson (x : Option Json) (y : Json) : Json :=
  match x with
  | some v => if v.truthy then v else y
  | none => y

/-- A parsed markup node as exposed through the BeautifulSoup interface
the source uses: tag name, attributes, `get_text(strip=True)` (carried as
the already-stripped `text`), and `select_one`, resolving a CSS selector
to the first matching descendant.  The selector engine belongs to the
external library, so it is carried as a function on the node. -/
inductive HtmlNode where
  | mk (name : String) (attrs : List (String × String)) (text : String)
      (sub : String → Option HtmlNode)

/-- Tag name of the node (`el.name`). -/
def HtmlNode.name : HtmlNode → String
  | HtmlNode.mk n _ _ _ => n

/-- Attribute list of the node. -/
def HtmlNode.attrs : HtmlNode → List (String × String)
  | HtmlNode.mk _ a _ _ => a

/-- `el.get_text(strip=True)`. -/
def HtmlNode.get_text : HtmlNode → String
  | HtmlNode.mk _ _ t _ => t

/-- `node.select_one(sel)`. -/
def HtmlNode.select_one : HtmlNode → String → Option HtmlNode
  | HtmlNode.mk _ _ _ f => f

/-- `el.get(attr)`: the attribute's value, or `None` when absent. -/
def HtmlNode.get (nd : HtmlNode) (attr : String) : Option String :=
  nd.attrs.lookup attr

/-- `el.has_attr(attr)`. -/
def HtmlNode.has_attr (nd : HtmlNode) (attr : String) : Bool :=
  (nd.get attr).isSome

/-- Python truthiness of an optional string (`None` and `""` falsy). -/
def pyStrTruthy : Option String → Bool
  | none => false
  | some s => s != ""

/-- The per-field value resolution of the HTML loop of
`parse_json_or_html` (lines 308–323).  `sel.split(":", 1)[1]` is `sel`
without its 5-character `"attr:"` prefix (the split is taken under the
`startswith` guard, so the first colon sits at index 4).  The branch
`el.get("href") or el.get_text(strip=True)` uses Python string
truthiness: an empty `href` value falls back to the stripped text. -/
def resolveField (node : HtmlNode) (selector : String) : Option String :=
  let sel := pyStrip selector
  if pyStartsWith sel "attr:" then
    node.get (pyStrip (pyDrop sel 5))
  else
    match node.select_one sel with
    | none => none
    | some el =>
      if el.name == "img" && pyStrTruthy (el.get "src") then
        el.get "src"
      else if el.has_attr "href" then
        if pyStrTruthy (el.get "href") then el.get "href"
        else some el.get_text
      else
        some el.get_text

/-- The resolution of the `el.get("href")`-or-text step, as §4.5 of the
spec words it: prefer the link-target attribute, falling back to the
trimmed text when the attribute is present but empty, else the trimmed
text.  Written from the spec, to compare with the code. -/
def specLinkOrText (el : HtmlNode) : Option String :=
  match el.get "href" with
  | some h => if h != "" then some h else some el.get_text
  | none => some el.get_text

/-- The extraction precedence as §4.5 of the spec words it, taken
literally: an `attr:` directive reads the named attribute directly off
the container; otherwise the first matching descendant is resolved, null
if none; an image element carrying a source attribute yields that source
— "carrying one" imposes no non-emptiness requirement, so an empty
`src=""` still wins; else the link-target rule; else the trimmed text.
Written from the spec's and the claim's words, to compare with
`resolveField`. -/
def specFieldValueLiteral (node : HtmlNode) (selectorExpr : String) :
    Option String :=
  let sel := pyStrip selectorExpr
  if pyStartsWith sel "attr:" then
    node.get (pyStrip (pyDrop sel 5))
  else
    match node.select_one sel with
    | none => none
    | some el =>
      match el.get "src" with
      | some src => if el.name == "img" then some src else specLinkOrText el
      | none => specLinkOrText el

/-- The extraction precedence as amended: as the literal reading, except
that the source attribute of an image element wins only when its value is
non-empty (Python truthiness, matching `el.get("src")` used as a
condition); an image with `src=""` falls through to the link-target/text
rule.  Written from the amended claim's words, to compare with
`resolveField`. -/
def specFieldValue (node : HtmlNode) (selectorExpr : String) : Option String :=
  let sel := pyStrip selectorExpr
  if pyStartsWith sel "attr:" then
    node.get (pyStrip (pyDrop sel 5))
  else
    match node.select_one sel with
    | none => none
    | some el =>
      match el.get "src" with
      | some src =>
        if el.name == "img" && src != "" then some src else specLinkOrText el
      | none => specLinkOrText el

/-- What `parse_json_or_html` sees of a `requests.Response`: the
`Content-Type` header (possibly absent), the status code, the result of
`response.json()` (`Except.error` models the decode raising), and the
parsed document `to_soup(response.text)`, carried as its `select`
function. -/
structure PyResponse where
  content_type : Option String
  status_code : Nat
  decoded : Except Unit Json
  soup_select : String → List HtmlNode

/-- Items of a parse result: the JSON branch stores whatever value the
`or` chain produced; the HTML branch stores one field-to-value mapping
per container node, in schema order. -/
inductive ParsedItems where
  | fromJson (v : Json)
  | fromHtml (objs : List (List (String × Option String)))

/-- The dictionary `parse_json_or_html` returns. -/
structure ParseOutput where
  source : String
  items : ParsedItems
  status_code : Nat

/-- The content-type test of line 288:
`"application/json" in ctype or "text/json" in ctype or
"charset=json" in ctype`, over
`(response.headers.get("Content-Type") or "").lower()`. -/
def structuredCtype (resp : PyResponse) : Bool :=
  let ctype := strLower (resp.content_type.getD "")
  strMem "application/json" ctype || strMem "text/json" ctype ||
    strMem "charset=json" ctype

/-- Python truthiness of the optional `item_schema` dict (`None` and the
empty dict falsy). -/
def schemaTruthy : Option (List (String × String)) → Bool
  | none => false
  | some l => !l.isEmpty

/-- The HTML fallback of `parse_json_or_html` (lines 301–326): containers
are iterated only under `if list_selector and item_schema:` — both must be
present and truthy; each matched node yields one object with one entry per
schema field. -/
def htmlFallback (resp : PyResponse) (list_selector : Option String)
    (item_schema : Option (List (String × String))) : ParseOutput :=
  let items_out : List (List (String × Option String)) :=
    if pyStrTruthy list_selector && schemaTruthy item_schema then
      (resp.soup_select (list_selector.getD "")).map (fun node =>
        (item_schema.getD []).map (fun fs => (fs.1, resolveField node fs.2)))
    else []
  { source := "html", items := ParsedItems.fromHtml items_out
  , status_code := resp.status_code }

/-- `parse_json_or_html(response, list_selector=…, item_schema=…)`: on a
structured content type, try the decode — an object yields
`data.get("items") or data.get("results") or []` (Python `or`, hence
truthiness), a sequence yields itself, anything else yields `[]`; a decode
failure, like a non-structured content type, falls through to the HTML
path. -/
def parse_json_or_html (resp : PyResponse) (list_selector : Option String)
    (item_schema : Option (List (String × String))) : ParseOutput :=
  if structuredCtype resp then
    match resp.decoded with
    | Except.ok data =>
      let items : Json :=
        match data with
        | Json.obj fs =>
          pyOrJson (Json.get? fs "items") (pyOrJson (Json.get? fs "results") (Json.arr []))
        | Json.arr xs => Json.arr xs
        | _ => Json.arr []
      { source := "json", items := ParsedItems.fromJson items
      , status_code := resp.status_code }
    | Except.error _ => htmlFallback resp list_selector item_schema
  else htmlFallback resp list_selector item_schema

/-- The `results`-member fallback of the amended structured rule: the
`results` member if present with a truthy value, else the empty
sequence. -/
def resultsFallback (fs : List (String × Json)) : Json :=
  match Json.get? fs "results" with
  | some v => if v.truthy then v else Json.arr []
  | none => Json.arr []

/-- The structured-object rule as amended: the `items` member if present
with a truthy (in particular non-empty) value, else the `results` member
if present with a truthy value, else the empty sequence. -/
def structuredItemsAmended (fs : List (String × Json)) : Json :=
  match Json.get? fs "items" with
  | some v => if v.truthy then v else resultsFallback fs
  | none => resultsFallback fs

theorem pyOrJson_amended (fs : List (String × Json)) :
    pyOrJson (Json.get? fs "items")
      (pyOrJson (Json.get? fs "results") (Json.arr [])) =
      structuredItemsAmended fs := by
  unfold structuredItemsAmended resultsFallback pyOrJson
  cases Json.get? fs "items" <;> cases Json.get? fs "results" <;> rfl

/-- A structured response whose decoded object carries a present-but-empty
`items` member next to a non-empty `results` member. -/
def respC6 : PyResponse :=
  { content_type := some "application/json"
  , status_code := 200
  , decoded := Except.ok (Json.obj
      [("items", Json.arr []), ("results", Json.arr [Json.str "r"])])
  , soup_select := fun _ => [] }

/-- C6 (counterexample): the claim says a decoded object yields "the value
of the `items` member if present".  The source computes
`data.get("items") or data.get("results") or []` with Python truthiness,
so a present `items` member whose value is the empty (falsy) list is
passed over in favour of `results`: on a body
`{"items": [], "results": ["r"]}` the call returns `["r"]`, not the
`items` value `[]`. -/
theorem claim_C6_counterexample :
    (parse_json_or_html respC6 none none).items =
      ParsedItems.fromJson (Json.arr [Json.str "r"]) ∧
    Json.get? [("items", Json.arr []), ("results", Json.arr [Json.str "r"])]
      "items" = some (Json.arr []) ∧
    ParsedItems.fromJson (Json.arr [Json.str "r"]) ≠
      ParsedItems.fromJson (Json.arr []) := by
  refine ⟨rfl, rfl, ?_⟩
  intro h
  simp at h

/-- C6 (amended): on a structured content type, a decode into an object
yields the `items` member if present and truthy, else the `results`
member if present and truthy, else the empty sequence; a decode into a
sequence yields that sequence directly; a decode failure falls through to
the semi-structured (HTML) handling instead of failing the call. -/
theorem claim_C6_amended (resp : PyResponse) (ls : Option String)
    (schema : Option (List (String × String)))
    (hct : structuredCtype resp = true) :
    (∀ fs, resp.decoded = Except.ok (Json.obj fs) →
      parse_json_or_html resp ls schema =
        { source := "json"
        , items := ParsedItems.fromJson (structuredItemsAmended fs)
        , status_code := resp.status_code }) ∧
    (∀ xs, resp.decoded = Except.ok (Json.arr xs) →
      parse_json_or_html resp ls schema =
        { source := "json"
        , items := ParsedItems.fromJson (Json.arr xs)
        , status_code := resp.status_code }) ∧
    (∀ u, resp.decoded = Except.error u →
      parse_json_or_html resp ls schema = htmlFallback resp ls schema) := by
  refine ⟨?_, ?_, ?_⟩
  · intro fs hdec
    simp [parse_json_or_html, hct, hdec, pyOrJson_amended]
  · intro xs hdec
    simp [parse_json_or_html, hct, hdec]
  · intro u hdec
    simp [parse_json_or_html, hct, hdec]

/-- A structured response with a truthy `items` member. -/
def respC6W : PyResponse :=
  { content_type := some "application/json"
  , status_code := 200
  , decoded := Except.ok (Json.obj [("items", Json.arr [Json.str "a"])])
  , soup_select := fun _ => [] }

/-- Witness for C6 (amended) on a body `{"items": ["a"]}`. -/
theorem claim_C6_amended_witness :
    parse_json_or_html respC6W none none =
      { source := "json"
      , items := ParsedItems.fromJson
          (structuredItemsAmended [("items", Json.arr [Json.str "a"])])
      , status_code := 200 } :=
  (claim_C6_amended respC6W none none rfl).1
    [("items", Json.arr [Json.str "a"])] rfl

theorem resolveField_link_eq (el : HtmlNode) :
    (if el.has_attr "href" then
       (if pyStrTruthy (el.get "href") then el.get "href" else some el.get_text)
     else some el.get_text) = specLinkOrText el := by
  unfold specLinkOrText HtmlNode.has_attr
  cases hhref : el.get "href" with
  | none => simp [pyStrTruthy]
  | some h => simp [pyStrTruthy]

/-- An image descendant whose source attribute is present but empty, and
whose stripped text is `"txt"`. -/
def imgEmptySrc : HtmlNode :=
  HtmlNode.mk "img" [("src", "")] "txt" (fun _ => none)

/-- A container node whose matched descendant is the `<img src="">`
above. -/
def nodeC7 : HtmlNode :=
  HtmlNode.mk "div" [] "container" (fun _ => some imgEmptySrc)

/-- C7 (counterexample): the claim's precedence takes "its source
attribute if it is an image element carrying one", with no non-emptiness
requirement.  At a container whose matched descendant is an
`<img src="">`, that precedence yields the (empty) source, but the code's
test `el.name == "img" and el.get("src")` (anti_scrape.py line 318)
treats the empty value as falsy and falls through to the href/text rule,
yielding the stripped text instead. -/
theorem claim_C7_counterexample :
    resolveField nodeC7 "img" = some "txt" ∧
    specFieldValueLiteral nodeC7 "img" = some "" ∧
    (some "txt" : Option String) ≠ some "" := by
  refine ⟨by decide, by decide, by decide⟩

/-- C7 (amended): the per-field value resolution of the HTML extraction
loop agrees, on every container node and every selector expression, with
the precedence: a selector expression beginning with `attr:` reads the
named attribute directly off the container node; otherwise the first
matching descendant is resolved, null if none; the source attribute of an
image element when present with a non-empty value; else a present
link-target attribute, falling back to the trimmed text when its value is
empty; else the trimmed text. -/
theorem claim_C7_amended : ∀ (node : HtmlNode) (expr : String),
    resolveField node expr = specFieldValue node expr := by
  intro node expr
  simp only [resolveField, specFieldValue]
  by_cases hs : pyStartsWith (pyStrip expr) "attr:" = true
  · rw [if_pos hs, if_pos hs]
  · rw [if_neg hs, if_neg hs]
    cases hsel : node.select_one (pyStrip expr) with
    | none => rfl
    | some el =>
      dsimp only
      cases hsrc : el.get "src" with
      | none =>
        dsimp only
        rw [resolveField_link_eq]
        simp [pyStrTruthy]
      | some src =>
        dsimp only
        rw [resolveField_link_eq]
        simp [pyStrTruthy]

/-- C10: on the semi-structured path, a provided list selector with an
absent or empty field map yields an empty items sequence — the guard
`if list_selector and item_schema:` requires a truthy (non-empty) field
map, so the matched container nodes are never iterated. -/
theorem claim_C10 (resp : PyResponse) (ls : Option String)
    (schema : Option (List (String × String)))
    (hls : ∃ s, ls = some s)
    (hschema : schema = none ∨ schema = some []) :
    (htmlFallback resp ls schema).items = ParsedItems.fromHtml [] ∧
    (htmlFallback resp ls schema).source = "html" := by
  obtain ⟨s, rfl⟩ := hls
  rcases hschema with rfl | rfl <;> simp [htmlFallback, schemaTruthy]

/-- A container node, present so the witness document has matches for the
list selector. -/
def nodeDiv : HtmlNode := HtmlNode.mk "div" [] "x" (fun _ => none)

/-- An HTML response whose document matches any selector with one node. -/
def respC10 : PyResponse :=
  { content_type := some "text/html"
  , status_code := 200
  , decoded := Except.error ()
  , soup_select := fun _ => [nodeDiv] }

/-- Witness for C10: a provided selector that does match a container, with
an empty field map, still yields no items. -/
theorem claim_C10_witness :
    (htmlFallback respC10 (some "li") (some [])).items = ParsedItems.fromHtml [] ∧
    (htmlFallback respC10 (some "li") (some [])).source = "html" :=
  claim_C10 respC10 (some "li") (some []) ⟨"li", rfl⟩ (Or.inr rfl)
